import Mathlib

/-!
# Verification of the myassetchaincode record engine

Shallow embedding of `src/myassetchaincode/myassetchaincode.go`, the
Hyperledger Fabric chaincode managing telecom dealer `Asset` records.

Modelling conventions:
* The Fabric world state (`ctx.GetStub()`'s `GetState`/`PutState`) is a
  `StateMap`, an association list from keys to serialized values; a `Stub`
  carries it together with fault-injection sets (`getErr`, `putErr`) for
  store-level failures and the transaction timestamp source.
* Go's `encoding/json` (standard library, outside this repository) is
  modelled at the JSON-value level: `json.Marshal` of an `Asset` is
  `encodeAsset : Asset → Json`, `json.Unmarshal` is
  `decodeAsset : Json → Option Asset`, with field-by-name decoding into
  the zero-valued struct, unknown fields ignored and int fields
  range-checked against int64 exactly as `encoding/json` does.
* `time.Time` is modelled as an `Int` instant at the platform's time
  resolution; the Go zero `time.Time` (seed assets of `InitLedger`
  leave `Timestamp` unset) is `0`.
* Go `int` is 64-bit on the target platform; `strconv.Atoi` therefore
  fails (`ErrRange`) outside `[-2^63, 2^63-1]`, and `-` on `int` wraps
  (`goSub`).
* Each chaincode method returns `Except CCError Unit × StateMap`: the Go
  `error` result paired with the world state after the call.  Every error
  return in the Go source happens before `PutState`, and a failed
  `PutState` commits nothing, so on error the state is the input state.
-/

namespace MyAsset

/-- JSON values, the target of Go `encoding/json` marshalling, at the
value level (objects keep field order, as `json.Marshal` of a struct
emits fields in declaration order). Numbers are `Int` since every
numeric field of the program is a Go `int` or an instant. -/
inductive Json where
  | str : String → Json
  | num : Int → Json
  | obj : List (String × Json) → Json

/-- The `Asset` struct of the Go source (myassetchaincode.go lines
13-23): DealerID, MSISDN (the record key), MPIN, Balance, Status,
TransAmount, TransType, Remarks, Timestamp. -/
structure Asset where
  DealerID : String
  MSISDN : String
  MPIN : String
  Balance : Int
  Status : String
  TransAmount : Int
  TransType : String
  Remarks : String
  Timestamp : Int
deriving DecidableEq, Repr

/-- Largest Go `int` (int64) value. -/
def maxInt64 : Int := 9223372036854775807

/-- Smallest Go `int` (int64) value. -/
def minInt64 : Int := -9223372036854775808

/-- Go's wrapping subtraction on `int` (two's-complement int64). -/
def goSub (a b : Int) : Int := (a - b + 2 ^ 63) % 2 ^ 64 - 2 ^ 63

/-- The Go zero value of `Asset`: `json.Unmarshal` decodes into a
zero-valued struct, leaving absent fields at their zero value. -/
def zeroAsset : Asset :=
  { DealerID := "", MSISDN := "", MPIN := "", Balance := 0, Status := "",
    TransAmount := 0, TransType := "", Remarks := "", Timestamp := 0 }

/-- Model of `json.Marshal` of an `Asset`: one object field per struct field,
in declaration order, using the struct's json tags as names. -/
def encodeAsset (a : Asset) : Json :=
  .obj [("DealerID", .str a.DealerID), ("MSISDN", .str a.MSISDN),
        ("MPIN", .str a.MPIN), ("Balance", .num a.Balance),
        ("Status", .str a.Status), ("TransAmount", .num a.TransAmount),
        ("TransType", .str a.TransType), ("Remarks", .str a.Remarks),
        ("Timestamp", .num a.Timestamp)]

/-- One step of `json.Unmarshal` into an `Asset`: assign one object
field to the struct field whose json tag matches, failing on a type
mismatch or an out-of-int64-range number, ignoring unknown names. -/
def setField (a : Asset) (key : String) (v : Json) : Option Asset :=
  if key = "DealerID" then
    match v with | .str s => some { a with DealerID := s } | _ => none
  else if key = "MSISDN" then
    match v with | .str s => some { a with MSISDN := s } | _ => none
  else if key = "MPIN" then
    match v with | .str s => some { a with MPIN := s } | _ => none
  else if key = "Balance" then
    match v with
    | .num n => if minInt64 ≤ n ∧ n ≤ maxInt64 then some { a with Balance := n } else none
    | _ => none
  else if key = "Status" then
    match v with | .str s => some { a with Status := s } | _ => none
  else if key = "TransAmount" then
    match v with
    | .num n => if minInt64 ≤ n ∧ n ≤ maxInt64 then some { a with TransAmount := n } else none
    | _ => none
  else if key = "TransType" then
    match v with | .str s => some { a with TransType := s } | _ => none
  else if key = "Remarks" then
    match v with | .str s => some { a with Remarks := s } | _ => none
  else if key = "Timestamp" then
    match v with | .num n => some { a with Timestamp := n } | _ => none
  else some a

/-- Fold of `setField` over an object's members in order (later
duplicate names overwrite earlier ones, as in `encoding/json`). -/
def decodeFields : Asset → List (String × Json) → Option Asset
  | a, [] => some a
  | a, (k, v) :: rest =>
    match setField a k v with
    | none => none
    | some a' => decodeFields a' rest

/-- Model of `json.Unmarshal` of bytes into an `Asset`: requires a JSON object,
then decodes its fields into the zero-valued struct. -/
def decodeAsset : Json → Option Asset
  | .obj fs => decodeFields zeroAsset fs
  | _ => none

/-- Digit run of `strconv.Atoi`: accumulates base-10 digits, failing on
any non-digit character. -/
def parseDigits : Nat → List Char → Option Nat
  | acc, [] => some acc
  | acc, c :: cs =>
    if c.isDigit then parseDigits (acc * 10 + (c.toNat - 48)) cs else none

/-- Sign-stripped body of `strconv.Atoi`: a non-empty all-digit run,
range-checked against Go `int` (int64); out-of-range input is
`ErrRange`, i.e. failure. -/
def atoiCore (neg : Bool) : List Char → Option Int
  | [] => none
  | cs =>
    match parseDigits 0 cs with
    | none => none
    | some n =>
      if neg then (if (n : Int) ≤ 2 ^ 63 then some (-(n : Int)) else none)
      else (if (n : Int) ≤ maxInt64 then some n else none)

/-- Model of `strconv.Atoi`: optional sign, then one or more digits; anything
else (empty, stray characters, overflow) is an error, modelled `none`. -/
def atoi (s : String) : Option Int :=
  match s.toList with
  | '+' :: cs => atoiCore false cs
  | '-' :: cs => atoiCore true cs
  | cs => atoiCore false cs

/-- The Fabric world state visible to this chaincode: latest serialized
value per key. An association list where `putS` conses, so `getS`
(first match) sees the most recent write. -/
abbrev StateMap := List (String × Json)

/-- Result of a successful `GetState`: the latest value at `k`, `none`
when the key is absent (Fabric returns nil bytes for a missing key). -/
def getS (st : StateMap) (k : String) : Option Json := st.lookup k

/-- Effect of a successful `PutState`: `k` now maps to `v`. -/
def putS (st : StateMap) (k : String) (v : Json) : StateMap := (k, v) :: st

/-- The transaction context handed to each chaincode method: the world
state plus fault injection for the external collaborators. `getErr`
(resp. `putErr`) lists keys whose `GetState` (resp. `PutState`) fails
at the store level; `txTime = none` models `GetTxTimestamp` or the
`ptypes.Timestamp` conversion failing. -/
structure Stub where
  state : StateMap
  getErr : List String
  putErr : List String
  txTime : Option Int

/-- The error outcomes of the chaincode methods, one constructor per
distinct `fmt.Errorf` site in the Go source. -/
inductive CCError where
  /-- The error "failed to read from world state: %v" (GetState failed). -/
  | worldStateReadFailed
  /-- The error "asset with MSISDN %s does not exist" (ReadAsset, nil bytes). -/
  | assetNotFound (msisdn : String)
  /-- The error "error unmarshalling asset: %v" (ReadAsset, bad bytes). -/
  | unmarshalError
  /-- The error "asset with MSISDN %s already exists" (CreateAsset). -/
  | alreadyExists (msisdn : String)
  /-- The error "error checking asset existence: %v" (CreateAsset wrapping an AssetExists error). -/
  | existenceCheck (e : CCError)
  /-- The error "error reading asset: %v" (UpdateAsset wrapping a ReadAsset error). -/
  | readWrap (e : CCError)
  /-- The error "error converting newBalanceStr to integer: %v" (UpdateAsset). -/
  | atoiError
  /-- The error "error getting transaction timestamp: %v" or "error converting timestamp: %v". -/
  | txTimestampError
  /-- The error "failed to put to world state: %v", a PutState error surfaced unchanged. -/
  | putStateFailed
deriving DecidableEq, Repr

/-- Model of `ReadAsset` (source lines 141-157): `GetState`, fail if the read
fails, fail `assetNotFound` on nil bytes, else `json.Unmarshal`,
failing on undecodable bytes. -/
def ReadAsset (st : Stub) (msisdn : String) : Except CCError Asset :=
  if msisdn ∈ st.getErr then .error .worldStateReadFailed
  else
    match getS st.state msisdn with
    | none => .error (.assetNotFound msisdn)
    | some j =>
      match decodeAsset j with
      | none => .error .unmarshalError
      | some a => .ok a

/-- Model of `AssetExists` (source lines 190-197): `GetState`, fail if the read
fails, else report whether the returned bytes are non-nil. -/
def AssetExists (st : Stub) (msisdn : String) : Except CCError Bool :=
  if msisdn ∈ st.getErr then .error .worldStateReadFailed
  else .ok (getS st.state msisdn).isSome

/-- Model of `CreateAsset` (source lines 59-95): exists-check (wrapping its
error), fail if the key exists, build the asset with the supplied
dealerID/msisdn/mpin/balance/status but `TransAmount = 0`,
`TransType = ""`, `Remarks = ""`, stamp it with the transaction
timestamp, marshal (total for this struct) and `PutState` under the
msisdn. Returns the Go `error` result and the resulting world state. -/
def CreateAsset (st : Stub) (dealerID msisdn mpin : String) (balance : Int)
    (status transType remarks : String) : Except CCError Unit × StateMap :=
  match AssetExists st msisdn with
  | .error e => (.error (.existenceCheck e), st.state)
  | .ok true => (.error (.alreadyExists msisdn), st.state)
  | .ok false =>
    let asset : Asset :=
      { DealerID := dealerID, MSISDN := msisdn, MPIN := mpin,
        Balance := balance, Status := status, TransAmount := 0,
        TransType := "", Remarks := "", Timestamp := 0 }
    match st.txTime with
    | none => (.error .txTimestampError, st.state)
    | some t =>
      let asset := { asset with Timestamp := t }
      if msisdn ∈ st.putErr then (.error .putStateFailed, st.state)
      else (.ok (), putS st.state msisdn (encodeAsset asset))

/-- Model of `UpdateAsset` (source lines 98-139): read the current asset
(wrapping its error), `strconv.Atoi` the new balance, then reassign the
fields in source order — `Balance` is overwritten BEFORE `TransAmount`
is computed as `newBalance - asset.Balance`, so the delta is taken
against the already-updated balance — stamp the transaction timestamp,
marshal and `PutState` under the same msisdn. The unused caller
`transType`/`remarks` ARE stored here, unlike in CreateAsset. -/
def UpdateAsset (st : Stub) (msisdn newBalanceStr newStatus transType remarks : String) :
    Except CCError Unit × StateMap :=
  match ReadAsset st msisdn with
  | .error e => (.error (.readWrap e), st.state)
  | .ok asset0 =>
    match atoi newBalanceStr with
    | none => (.error .atoiError, st.state)
    | some newBalance =>
      let a1 := { asset0 with Balance := newBalance }
      let a2 := { a1 with Status := newStatus }
      let a3 := { a2 with TransAmount := goSub newBalance a2.Balance }
      let a4 := { a3 with TransType := transType }
      let a5 := { a4 with Remarks := remarks }
      match st.txTime with
      | none => (.error .txTimestampError, st.state)
      | some t =>
        let a6 := { a5 with Timestamp := t }
        if msisdn ∈ st.putErr then (.error .putStateFailed, st.state)
        else (.ok (), putS st.state msisdn (encodeAsset a6))

/-- The fixed seed assets of `InitLedger` (source lines 38-41):
`Timestamp` is left unset, i.e. the Go zero time, modelled `0`. -/
def seedAssets : List Asset :=
  [{ DealerID := "D001", MSISDN := "1234567890", MPIN := "1234",
     Balance := 1000, Status := "Active", TransAmount := 0,
     TransType := "", Remarks := "", Timestamp := 0 },
   { DealerID := "D002", MSISDN := "9876543210", MPIN := "5678",
     Balance := 1500, Status := "Active", TransAmount := 0,
     TransType := "", Remarks := "", Timestamp := 0 }]

/-- The per-asset loop of `InitLedger`: marshal (total for this struct,
so the `json.Marshal` error branch is unreachable) and `PutState` each
asset under its own MSISDN, aborting the remaining writes on the first
store-write failure. -/
def initLoop (putErr : List String) (s : StateMap) :
    List Asset → Except CCError Unit × StateMap
  | [] => (.ok (), s)
  | a :: rest =>
    if a.MSISDN ∈ putErr then (.error .putStateFailed, s)
    else initLoop putErr (putS s a.MSISDN (encodeAsset a)) rest

/-- Model of `InitLedger` (source lines 37-56): writes the seed assets with no
existence check, overwriting whatever the store holds at those keys. -/
def InitLedger (st : Stub) : Except CCError Unit × StateMap :=
  initLoop st.putErr st.state seedAssets

/-! ## Helper lemmas -/

example : atoi "500" = some 500 := by decide
example : atoi "abc" = none := by decide
example : atoi "-42" = some (-42) := by decide
example : atoi "" = none := by decide
example : goSub 500 500 = 0 := by decide

/-- Codec round-trip: decoding an encoded asset whose int fields are in
Go `int` range recovers the asset. -/
theorem decode_encode_aux (a : Asset)
    (hb1 : minInt64 ≤ a.Balance) (hb2 : a.Balance ≤ maxInt64)
    (ht1 : minInt64 ≤ a.TransAmount) (ht2 : a.TransAmount ≤ maxInt64) :
    decodeAsset (encodeAsset a) = some a := by
  simp [decodeAsset, encodeAsset, decodeFields, setField, zeroAsset, hb1, hb2, ht1, ht2]

/-- Decoding an encoded asset can only ever produce that asset back
(when the int range checks fail it produces nothing at all). -/
theorem decode_encode_some (r r' : Asset)
    (h : decodeAsset (encodeAsset r) = some r') : r' = r := by
  by_cases hb : minInt64 ≤ r.Balance ∧ r.Balance ≤ maxInt64
  · by_cases ht : minInt64 ≤ r.TransAmount ∧ r.TransAmount ≤ maxInt64
    · rw [decode_encode_aux r hb.1 hb.2 ht.1 ht.2] at h
      exact (Option.some.injEq _ _ ▸ h).symm
    · simp [decodeAsset, encodeAsset, decodeFields, setField, zeroAsset, hb, ht] at h
  · simp [decodeAsset, encodeAsset, decodeFields, setField, zeroAsset, hb] at h

/-- Reading after `putS`: the written key reads back the written value,
every other key is untouched. -/
theorem getS_putS (s : StateMap) (k k' : String) (v : Json) :
    getS (putS s k v) k' = if k' = k then some v else getS s k' := by
  simp only [getS, putS, List.lookup]
  by_cases h : k' = k
  · simp [h]
  · simp [h, beq_eq_false_iff_ne.mpr h]

/-- Inversion of a successful `ReadAsset`: the store held bytes at the
key and they decoded to the returned asset. -/
theorem readAsset_ok_inv (st : Stub) (k : String) (a : Asset)
    (h : ReadAsset st k = .ok a) :
    ∃ j, getS st.state k = some j ∧ decodeAsset j = some a := by
  by_cases hg : k ∈ st.getErr
  · simp [ReadAsset, hg] at h
  · cases hj : getS st.state k with
    | none => simp [ReadAsset, hg, hj] at h
    | some j =>
      cases hd : decodeAsset j with
      | none => simp [ReadAsset, hg, hj, hd] at h
      | some a' =>
        simp [ReadAsset, hg, hj, hd] at h
        exact ⟨j, rfl, by simp [hd, h]⟩

/-! ## Claim theorems -/

/-- C8: serialize-then-deserialize reproduces every field of a valid
`Asset` exactly — DealerID, MSISDN, MPIN, Balance, Status, TransAmount,
TransType, Remarks, and Timestamp at the platform's time resolution.
(Valid = the int fields fit Go `int`, true of every Go-built value.) -/
theorem serialize_roundtrip (a : Asset)
    (hb1 : minInt64 ≤ a.Balance) (hb2 : a.Balance ≤ maxInt64)
    (ht1 : minInt64 ≤ a.TransAmount) (ht2 : a.TransAmount ≤ maxInt64) :
    decodeAsset (encodeAsset a) = some a :=
  decode_encode_aux a hb1 hb2 ht1 ht2

/-- Witness for C8 at a concrete asset. -/
theorem serialize_roundtrip_witness :
    decodeAsset (encodeAsset
      { DealerID := "D001", MSISDN := "1234567890", MPIN := "1234",
        Balance := 1000, Status := "Active", TransAmount := -500,
        TransType := "Credit", Remarks := "top-up", Timestamp := 42 }) =
    some { DealerID := "D001", MSISDN := "1234567890", MPIN := "1234",
           Balance := 1000, Status := "Active", TransAmount := -500,
           TransType := "Credit", Remarks := "top-up", Timestamp := 42 } :=
  serialize_roundtrip _ (by decide) (by decide) (by decide) (by decide)

/-- C5: `AssetExists` errs exactly when the store read itself fails
(and then with the store-read error); on a successful read, an absent
key is the valid result `false` and a present value is `true`. -/
theorem assetExists_spec (st : Stub) (k : String) :
    (k ∈ st.getErr → AssetExists st k = .error .worldStateReadFailed) ∧
    (k ∉ st.getErr → getS st.state k = none → AssetExists st k = .ok false) ∧
    (k ∉ st.getErr → ∀ j, getS st.state k = some j → AssetExists st k = .ok true) ∧
    (∀ e, AssetExists st k = .error e → k ∈ st.getErr ∧ e = .worldStateReadFailed) := by
  by_cases hg : k ∈ st.getErr
  · refine ⟨fun _ => by simp [AssetExists, hg], fun h => absurd hg h,
      fun h => absurd hg h, fun e he => ⟨hg, ?_⟩⟩
    simp [AssetExists, hg] at he
    exact he.symm
  · refine ⟨fun h => absurd h hg, fun _ h => by simp [AssetExists, hg, h],
      fun _ j h => by simp [AssetExists, hg, h], fun e he => ?_⟩
    simp [AssetExists, hg] at he

/-- A one-record context used to exercise the theorems concretely. -/
def stubOne : Stub :=
  { state := [("1234567890", Json.num 0)], getErr := [], putErr := [], txTime := some 42 }

/-- An empty-store context used to exercise the theorems concretely. -/
def stubEmpty : Stub :=
  { state := [], getErr := [], putErr := [], txTime := some 42 }

/-- Witness for C5: a present key yields `true`, an absent key `false`,
both without error. -/
theorem assetExists_spec_witness :
    AssetExists stubOne "1234567890" = .ok true ∧
    AssetExists stubEmpty "x" = .ok false :=
  ⟨(assetExists_spec stubOne "1234567890").2.2.1 (by decide) (Json.num 0) rfl,
   (assetExists_spec stubEmpty "x").2.1 (by decide) rfl⟩

/-- C6: `ReadAsset` fails with the store-read error when the store read
fails; otherwise it fails NotFound exactly when the key holds nothing,
and fails with the deserialization error when the held bytes do not
decode; a never-written key moreover has `AssetExists = false`. -/
theorem readAsset_spec (st : Stub) (k : String) :
    (k ∈ st.getErr → ReadAsset st k = .error .worldStateReadFailed) ∧
    (k ∉ st.getErr → (ReadAsset st k = .error (.assetNotFound k) ↔ getS st.state k = none)) ∧
    (k ∉ st.getErr → ∀ j, getS st.state k = some j → decodeAsset j = none →
      ReadAsset st k = .error .unmarshalError) ∧
    (k ∉ st.getErr → getS st.state k = none → AssetExists st k = .ok false) := by
  refine ⟨fun hg => by simp [ReadAsset, hg], fun hg => ?_,
    fun hg j hj hd => by simp [ReadAsset, hg, hj, hd],
    fun hg h => by simp [AssetExists, hg, h]⟩
  constructor
  · intro h
    cases hj : getS st.state k with
    | none => rfl
    | some j =>
      cases hd : decodeAsset j with
      | none => simp [ReadAsset, hg, hj, hd] at h
      | some a => simp [ReadAsset, hg, hj, hd] at h
  · intro h
    simp [ReadAsset, hg, h]

/-- Witness for C6: a never-written key is `NotFound` on read and
`false` on exists. -/
theorem readAsset_spec_witness :
    ReadAsset stubEmpty "k" = .error (.assetNotFound "k") ∧
    AssetExists stubEmpty "k" = .ok false :=
  ⟨((readAsset_spec stubEmpty "k").2.1 (by decide)).mpr rfl,
   (readAsset_spec stubEmpty "k").2.2.2 (by decide) rfl⟩

/-- A record at balance 1000, as stored before the C1/C3 update calls. -/
def assetW : Asset :=
  { DealerID := "D001", MSISDN := "1234567890", MPIN := "1234", Balance := 1000,
    Status := "Active", TransAmount := 0, TransType := "", Remarks := "", Timestamp := 0 }

/-- A context whose store holds `assetW` under its MSISDN. -/
def stubAsset : Stub :=
  { state := [("1234567890", encodeAsset assetW)], getErr := [], putErr := [],
    txTime := some 42 }

/-- C1: evaluated at the claim's own example — update to balance 500 on
a record previously at balance 1000 — the code succeeds but stores
`TransAmount = 0`, not `500 - 1000 = -500`: `asset.Balance` is
overwritten with the new balance before the delta `newBalance -
asset.Balance` is taken, so the stored delta is zero, contradicting the
claim's required pre-update delta. -/
theorem updateAsset_stores_zero_delta :
    UpdateAsset stubAsset "1234567890" "500" "Active" "Credit" "top-up" =
      (.ok (), putS stubAsset.state "1234567890" (encodeAsset
        { DealerID := "D001", MSISDN := "1234567890", MPIN := "1234", Balance := 500,
          Status := "Active", TransAmount := 0, TransType := "Credit",
          Remarks := "top-up", Timestamp := 42 })) ∧
    (0 : Int) ≠ 500 - 1000 :=
  ⟨rfl, by decide⟩

/-- C2: creating at a key that already holds a value fails with
`AlreadyExists` and returns the store exactly as it was. -/
theorem createAsset_alreadyExists (st : Stub) (d m p : String) (b : Int)
    (s tt rm : String) (hg : m ∉ st.getErr) (j : Json) (hj : getS st.state m = some j) :
    CreateAsset st d m p b s tt rm = (.error (.alreadyExists m), st.state) := by
  simp [CreateAsset, AssetExists, hg, hj]

/-- Witness for C2: a second create at the already-populated key of
`stubAsset` fails and leaves the state untouched. -/
theorem createAsset_alreadyExists_witness :
    CreateAsset stubAsset "D9" "1234567890" "0000" 5 "Idle" "T" "R" =
      (.error (.alreadyExists "1234567890"), stubAsset.state) :=
  createAsset_alreadyExists stubAsset "D9" "1234567890" "0000" 5 "Idle" "T" "R"
    (by decide) (encodeAsset assetW) rfl

/-- C3: updating a stored, decodable record with a balance text that
does not parse as an integer fails with the balance-format error and
returns the store exactly as it was (no write happens). -/
theorem updateAsset_invalidBalanceFormat (st : Stub) (m nb ns tt rm : String)
    (hg : m ∉ st.getErr) (j : Json) (hj : getS st.state m = some j)
    (a : Asset) (ha : decodeAsset j = some a) (hp : atoi nb = none) :
    UpdateAsset st m nb ns tt rm = (.error .atoiError, st.state) := by
  simp [UpdateAsset, ReadAsset, hg, hj, ha, hp]

/-- Witness for C3: `update(k, "abc", ...)` on the stored record fails
and changes nothing. -/
theorem updateAsset_invalidBalanceFormat_witness :
    UpdateAsset stubAsset "1234567890" "abc" "Active" "T" "R" =
      (.error .atoiError, stubAsset.state) :=
  updateAsset_invalidBalanceFormat stubAsset "1234567890" "abc" "Active" "T" "R"
    (by decide) (encodeAsset assetW) rfl assetW (by decide) (by decide)

/-- C4: every successful create stores, under the supplied key, a
record carrying exactly the supplied dealerID, key, secret, balance and
status, with `TransAmount = 0`, `TransType = ""` and `Remarks = ""`
regardless of the caller-supplied transType and remarks. -/
theorem createAsset_forces_fields (st : Stub) (d m p : String) (b : Int)
    (s tt rm : String) (h : (CreateAsset st d m p b s tt rm).fst = .ok ()) :
    ∃ r : Asset, getS (CreateAsset st d m p b s tt rm).snd m = some (encodeAsset r) ∧
      r.DealerID = d ∧ r.MSISDN = m ∧ r.MPIN = p ∧ r.Balance = b ∧ r.Status = s ∧
      r.TransAmount = 0 ∧ r.TransType = "" ∧ r.Remarks = "" := by
  cases hEx : AssetExists st m with
  | error e => simp [CreateAsset, hEx] at h
  | ok ex =>
    cases ex with
    | true => simp [CreateAsset, hEx] at h
    | false =>
      cases hT : st.txTime with
      | none => simp [CreateAsset, hEx, hT] at h
      | some t =>
        by_cases hP : m ∈ st.putErr
        · simp [CreateAsset, hEx, hT, hP] at h
        · refine ⟨{ DealerID := d, MSISDN := m, MPIN := p, Balance := b, Status := s,
                    TransAmount := 0, TransType := "", Remarks := "", Timestamp := t },
                  ?_, rfl, rfl, rfl, rfl, rfl, rfl, rfl, rfl⟩
          simp [CreateAsset, hEx, hT, hP, getS_putS]

/-- Witness for C4: a create on the empty store succeeds and stores the
forced-field record; caller transType "X" and remarks "Y" are dropped. -/
theorem createAsset_forces_fields_witness :
    ∃ r : Asset,
      getS (CreateAsset stubEmpty "D001" "k" "1234" 7 "Active" "X" "Y").snd "k" =
        some (encodeAsset r) ∧
      r.DealerID = "D001" ∧ r.MSISDN = "k" ∧ r.MPIN = "1234" ∧ r.Balance = 7 ∧
      r.Status = "Active" ∧ r.TransAmount = 0 ∧ r.TransType = "" ∧ r.Remarks = "" :=
  createAsset_forces_fields stubEmpty "D001" "k" "1234" 7 "Active" "X" "Y" rfl

/-- C7: `InitLedger` performs no existence check: for an arbitrary
starting store it writes exactly the two seed records — keys
"1234567890" and "9876543210", balances 1000 and 1500, status
"Active", zero TransAmount, empty TransType/Remarks, unset (zero)
timestamp — under their own keys, silently overwriting whatever was
there, leaving every other key untouched; and it aborts the remaining
writes on the first store-write failure, surfacing the error
(serialization of this struct cannot fail, so the store write is the
only fallible step). -/
theorem initLedger_spec (st : Stub) :
    ("1234567890" ∉ st.putErr → "9876543210" ∉ st.putErr →
      InitLedger st = (.ok (),
        putS (putS st.state "1234567890" (encodeAsset
          { DealerID := "D001", MSISDN := "1234567890", MPIN := "1234", Balance := 1000,
            Status := "Active", TransAmount := 0, TransType := "", Remarks := "",
            Timestamp := 0 })) "9876543210" (encodeAsset
          { DealerID := "D002", MSISDN := "9876543210", MPIN := "5678", Balance := 1500,
            Status := "Active", TransAmount := 0, TransType := "", Remarks := "",
            Timestamp := 0 }))) ∧
    ("1234567890" ∉ st.putErr → "9876543210" ∉ st.putErr →
      ∀ k, k ≠ "1234567890" → k ≠ "9876543210" →
        getS (InitLedger st).snd k = getS st.state k) ∧
    ("1234567890" ∈ st.putErr → InitLedger st = (.error .putStateFailed, st.state)) ∧
    ("1234567890" ∉ st.putErr → "9876543210" ∈ st.putErr →
      InitLedger st = (.error .putStateFailed,
        putS st.state "1234567890" (encodeAsset
          { DealerID := "D001", MSISDN := "1234567890", MPIN := "1234", Balance := 1000,
            Status := "Active", TransAmount := 0, TransType := "", Remarks := "",
            Timestamp := 0 }))) := by
  refine ⟨fun h1 h2 => ?_, fun h1 h2 k hk1 hk2 => ?_, fun h1 => ?_, fun h1 h2 => ?_⟩
  · simp [InitLedger, initLoop, seedAssets, h1, h2]
  · simp [InitLedger, initLoop, seedAssets, h1, h2, getS_putS, hk1, hk2]
  · simp [InitLedger, initLoop, seedAssets, h1]
  · simp [InitLedger, initLoop, seedAssets, h1, h2]

/-- Witness for C7: on a store already holding "1234567890",
`InitLedger` succeeds and overwrites it with the seed record. -/
theorem initLedger_spec_witness :
    InitLedger stubAsset = (.ok (),
      putS (putS stubAsset.state "1234567890" (encodeAsset
        { DealerID := "D001", MSISDN := "1234567890", MPIN := "1234", Balance := 1000,
          Status := "Active", TransAmount := 0, TransType := "", Remarks := "",
          Timestamp := 0 })) "9876543210" (encodeAsset
        { DealerID := "D002", MSISDN := "9876543210", MPIN := "5678", Balance := 1500,
          Status := "Active", TransAmount := 0, TransType := "", Remarks := "",
          Timestamp := 0 })) :=
  (initLedger_spec stubAsset).1 (by decide) (by decide)

/-- C9: a successful update stores, under the updated key, a record
whose DealerID, MPIN and MSISDN are exactly those of the record read at
the start of the operation (the update reassigns only Balance, Status,
TransAmount, TransType, Remarks and Timestamp). -/
theorem updateAsset_frame (st : Stub) (m nb ns tt rm : String) (a0 : Asset)
    (hr : ReadAsset st m = .ok a0)
    (hok : (UpdateAsset st m nb ns tt rm).fst = .ok ()) :
    ∃ r : Asset, getS (UpdateAsset st m nb ns tt rm).snd m = some (encodeAsset r) ∧
      r.DealerID = a0.DealerID ∧ r.MPIN = a0.MPIN ∧ r.MSISDN = a0.MSISDN := by
  cases hp : atoi nb with
  | none => simp [UpdateAsset, hr, hp] at hok
  | some nb' =>
    cases hT : st.txTime with
    | none => simp [UpdateAsset, hr, hp, hT] at hok
    | some t =>
      by_cases hP : m ∈ st.putErr
      · simp [UpdateAsset, hr, hp, hT, hP] at hok
      · refine ⟨{ a0 with
                    Balance := nb', Status := ns, TransAmount := goSub nb' nb',
                    TransType := tt, Remarks := rm, Timestamp := t },
                 ?_, rfl, rfl, rfl⟩
        simp [UpdateAsset, hr, hp, hT, hP, getS_putS]

/-- Witness for C9: the update at `stubAsset` keeps DealerID, MPIN and
MSISDN of the previously stored record. -/
theorem updateAsset_frame_witness :
    ∃ r : Asset,
      getS (UpdateAsset stubAsset "1234567890" "500" "Active" "Credit" "top-up").snd
          "1234567890" = some (encodeAsset r) ∧
      r.DealerID = assetW.DealerID ∧ r.MPIN = assetW.MPIN ∧ r.MSISDN = assetW.MSISDN :=
  updateAsset_frame stubAsset "1234567890" "500" "Active" "Credit" "top-up" assetW rfl rfl

/-- The engine's keying invariant: every decodable value in the store
sits under the key equal to its own MSISDN. -/
def wellKeyed (s : StateMap) : Prop :=
  ∀ k j a, getS s k = some j → decodeAsset j = some a → a.MSISDN = k

/-- Writing an encoded record under its own MSISDN preserves the keying
invariant. -/
theorem wellKeyed_putS (s : StateMap) (kk : String) (r : Asset)
    (hw : wellKeyed s) (hm : r.MSISDN = kk) :
    wellKeyed (putS s kk (encodeAsset r)) := by
  intro k j a hget hdec
  rw [getS_putS] at hget
  by_cases hk : k = kk
  · rw [if_pos hk] at hget
    obtain rfl : encodeAsset r = j := Option.some.inj hget
    have ha : a = r := decode_encode_some r a hdec
    rw [ha, hm, hk]
  · rw [if_neg hk] at hget
    exact hw k j a hget hdec

/-- Theorem: `InitLedger` preserves the keying invariant: each seed is written
under its own MSISDN. -/
theorem initLedger_wellKeyed (st : Stub) (hw : wellKeyed st.state) :
    wellKeyed (InitLedger st).snd := by
  by_cases h1 : "1234567890" ∈ st.putErr
  · simpa [InitLedger, initLoop, seedAssets, h1] using hw
  · by_cases h2 : "9876543210" ∈ st.putErr
    · simp only [InitLedger, initLoop, seedAssets]
      simp [h1, h2]
      exact wellKeyed_putS _ _ _ hw rfl
    · simp only [InitLedger, initLoop, seedAssets]
      simp [h1, h2]
      exact wellKeyed_putS _ _ _ (wellKeyed_putS _ _ _ hw rfl) rfl

/-- Theorem: `CreateAsset` preserves the keying invariant: the new record's
MSISDN is the key written. -/
theorem createAsset_wellKeyed (st : Stub) (d m p : String) (b : Int)
    (s tt rm : String) (hw : wellKeyed st.state) :
    wellKeyed (CreateAsset st d m p b s tt rm).snd := by
  cases hEx : AssetExists st m with
  | error e => simpa [CreateAsset, hEx] using hw
  | ok ex =>
    cases ex with
    | true => simpa [CreateAsset, hEx] using hw
    | false =>
      cases hT : st.txTime with
      | none => simpa [CreateAsset, hEx, hT] using hw
      | some t =>
        by_cases hP : m ∈ st.putErr
        · simpa [CreateAsset, hEx, hT, hP] using hw
        · simp [CreateAsset, hEx, hT, hP]
          exact wellKeyed_putS _ _ _ hw rfl

/-- Theorem: `UpdateAsset` preserves the keying invariant: the rewritten record
keeps the MSISDN of the record read at the key, which the invariant
pins to the key itself. -/
theorem updateAsset_wellKeyed (st : Stub) (m nb ns tt rm : String)
    (hw : wellKeyed st.state) :
    wellKeyed (UpdateAsset st m nb ns tt rm).snd := by
  cases hr : ReadAsset st m with
  | error e => simpa [UpdateAsset, hr] using hw
  | ok a0 =>
    obtain ⟨j, hj, hd⟩ := readAsset_ok_inv st m a0 hr
    have hm : a0.MSISDN = m := hw m j a0 hj hd
    cases hp : atoi nb with
    | none => simpa [UpdateAsset, hr, hp] using hw
    | some nb' =>
      cases hT : st.txTime with
      | none => simpa [UpdateAsset, hr, hp, hT] using hw
      | some t =>
        by_cases hP : m ∈ st.putErr
        · simpa [UpdateAsset, hr, hp, hT, hP] using hw
        · simp [UpdateAsset, hr, hp, hT, hP]
          exact wellKeyed_putS _ _ _ hw (by simpa using hm)

/-- C10: if every decodable record in the store sits under its own
MSISDN, then after any engine operation — InitLedger, Create, Update —
this still holds (each writes only under the written record's MSISDN),
and consequently reading any key yields a record whose MSISDN is that
key. -/
theorem engine_wellKeyed (st : Stub) (d m p : String) (b : Int)
    (s tt rm m2 nb ns tt2 rm2 : String) (hw : wellKeyed st.state) :
    wellKeyed (InitLedger st).snd ∧
    wellKeyed (CreateAsset st d m p b s tt rm).snd ∧
    wellKeyed (UpdateAsset st m2 nb ns tt2 rm2).snd ∧
    (∀ k a, ReadAsset st k = .ok a → a.MSISDN = k) := by
  refine ⟨initLedger_wellKeyed st hw, createAsset_wellKeyed st d m p b s tt rm hw,
    updateAsset_wellKeyed st m2 nb ns tt2 rm2 hw, fun k a hr => ?_⟩
  obtain ⟨j, hj, hd⟩ := readAsset_ok_inv st k a hr
  exact hw k j a hj hd

/-- Witness for C10 on the empty store, which trivially satisfies the
keying invariant. -/
theorem engine_wellKeyed_witness :
    wellKeyed (InitLedger stubEmpty).snd ∧
    wellKeyed (CreateAsset stubEmpty "D001" "k" "1234" 7 "Active" "X" "Y").snd ∧
    wellKeyed (UpdateAsset stubEmpty "k" "5" "A" "T" "R").snd ∧
    (∀ k a, ReadAsset stubEmpty k = .ok a → a.MSISDN = k) :=
  engine_wellKeyed stubEmpty "D001" "k" "1234" 7 "Active" "X" "Y" "k" "5" "A" "T" "R"
    (by intro k j a h; simp [getS, stubEmpty] at h)

end MyAsset
